import Mathlib

/-!
Verification development for the Technology Matrix worker
(files src/_worker.js, src/unnamed/part_000, src/unnamed/part_001).

The worker is a Cloudflare-style request handler in JavaScript.  We embed the
observable behaviour of its pure parts shallowly:

* JavaScript numbers after a Number() coercion are modelled by JSNum:
  NaN, plus or minus infinity, or a finite value (a rational stands in for the
  IEEE double; every rating compared here is a small literal, where the two
  orders agree).
* JavaScript strings are modelled by String; String.prototype.trim is modelled
  by jsTrim below.
* Values read off a parsed JSON body are modelled after the coercion the
  source applies to them (Number(...) for the two ratings, String(...) for the
  text fields, with none standing for null or undefined).
-/

namespace TechMatrix

/-- Result of the JavaScript Number() coercion: NaN, an infinity, or a finite
value. -/
inductive JSNum where
  | nan
  | posInf
  | negInf
  | fin (q : ℚ)
deriving DecidableEq, Repr

/-- Comparison x >= c against a finite constant, with IEEE semantics: NaN
compares false. -/
def JSNum.geC : JSNum → ℚ → Bool
  | .nan, _ => false
  | .posInf, _ => true
  | .negInf, _ => false
  | .fin q, c => decide (c ≤ q)

/-- Comparison x <= c against a finite constant, with IEEE semantics: NaN
compares false. -/
def JSNum.leC : JSNum → ℚ → Bool
  | .nan, _ => false
  | .posInf, _ => false
  | .negInf, _ => true
  | .fin q, c => decide (q ≤ c)

/-- A (code, label) classification pair as returned by computeTIME. -/
structure TimeResult where
  code : String
  label : String
deriving DecidableEq, Repr

/-- Backend classification function, from src/unnamed/part_001 lines 34-42
(the same function appears in src/unnamed/part_000 lines 45-54 and
src/src/_worker.js lines 44-53):

    const techHigh = Number(technicalFit) >= 4;
    const funcHigh = Number(functionalFit) >= 4;
    if (techHigh && funcHigh) return { code: "I", label: "Invest" };
    if (!techHigh && funcHigh) return { code: "M", label: "Migrate" };
    if (techHigh && !funcHigh) return { code: "T", label: "Tolerate" };
    return { code: "E", label: "Eliminate" };

The arguments stand for the values after Number() coercion; Number() is the
identity on numbers, and a non-numeric argument arrives as JSNum.nan. -/
def computeTIME (technicalFit functionalFit : JSNum) : TimeResult :=
  let techHigh := technicalFit.geC 4
  let funcHigh := functionalFit.geC 4
  if techHigh && funcHigh then ⟨"I", "Invest"⟩
  else if !techHigh && funcHigh then ⟨"M", "Migrate"⟩
  else if techHigh && !funcHigh then ⟨"T", "Tolerate"⟩
  else ⟨"E", "Eliminate"⟩

namespace ClientScript

/-- Client-side classification function embedded in the generated page, from
src/unnamed/part_001 lines 454-461 (the page script):

    var techHigh = Number(tech) >= 4;
    var funcHigh = Number(func) >= 4;
    if (techHigh && funcHigh) return { code:"I", label:"Invest" };
    if (!techHigh && funcHigh) return { code:"M", label:"Migrate" };
    if (techHigh && !funcHigh) return { code:"T", label:"Tolerate" };
    return { code:"E", label:"Eliminate" };
-/
def computeTIME (tech func : JSNum) : TimeResult :=
  let techHigh := tech.geC 4
  let funcHigh := func.geC 4
  if techHigh && funcHigh then ⟨"I", "Invest"⟩
  else if !techHigh && funcHigh then ⟨"M", "Migrate"⟩
  else if techHigh && !funcHigh then ⟨"T", "Tolerate"⟩
  else ⟨"E", "Eliminate"⟩

end ClientScript

/-- Model of String.prototype.startsWith: the first argument starts with the
second.  It is written over the character lists so that it evaluates by
kernel reduction. -/
def jsStartsWith (s pre : String) : Bool :=
  pre.data.isPrefixOf s.data

/-- Model of String.prototype.trim: drop whitespace characters from both ends.
It is written over the character list so that it evaluates by kernel
reduction; Char.isWhitespace stands in for the JavaScript whitespace class. -/
def jsTrim (s : String) : String :=
  ⟨((s.data.dropWhile Char.isWhitespace).reverse.dropWhile Char.isWhitespace).reverse⟩

/-- Worker environment bindings.  Environment variables are strings; none
stands for an unset variable. -/
structure Env where
  RESTDB_BASE : Option String
  RESTDB_COLLECTION : Option String
  RESTDB_API_KEY : Option String
  APP_SHARED_TOKEN : Option String
deriving DecidableEq, Repr

/-- JavaScript truthiness of an environment binding: unset or the empty
string is falsy. -/
def envTruthy : Option String → Bool
  | none => false
  | some s => s != ""

/-- Field access on Env by variable name, as requireEnv reads env[k]. -/
def Env.get (e : Env) : String → Option String
  | "RESTDB_BASE" => e.RESTDB_BASE
  | "RESTDB_COLLECTION" => e.RESTDB_COLLECTION
  | "RESTDB_API_KEY" => e.RESTDB_API_KEY
  | "APP_SHARED_TOKEN" => e.APP_SHARED_TOKEN
  | _ => none

/-- Keys rejected by requireEnv (src/unnamed/part_001 lines 44-47):
keys.filter((k) => !env[k]) over the three RESTDB settings. -/
def missingKeys (env : Env) : List String :=
  ["RESTDB_BASE", "RESTDB_COLLECTION", "RESTDB_API_KEY"].filter
    (fun k => !envTruthy (env.get k))

/-- Message of the Error thrown by requireEnv:
Missing env vars followed by the comma separated missing keys. -/
def missingMsg (env : Env) : String :=
  "Missing env vars: " ++ String.intercalate ", " (missingKeys env)

/-- A parsed JSON value, as produced by req.json(). -/
inductive JsonVal where
  | null
  | bool (b : Bool)
  | num (q : ℚ)
  | str (s : String)
  | arr (xs : List JsonVal)
  | obj (fields : List (String × JsonVal))

/-- JavaScript truthiness of a parsed JSON value. -/
def JsonVal.truthy : JsonVal → Bool
  | .null => false
  | .bool b => b
  | .num q => q != 0
  | .str s => s != ""
  | .arr _ => true
  | .obj _ => true

/-- Truthiness of the result of req.json().catch(() => null): a failed parse
becomes null, which is falsy. -/
def truthyOpt : Option JsonVal → Bool
  | none => false
  | some v => v.truthy

/-- Property reads the POST branch performs on the request body, each recorded
after the coercion the source applies at the read site:

* technicalFit, functionalFit hold Number(body.technicalFit) and
  Number(body.functionalFit);
* every other field holds the raw property where none stands for null or
  undefined and some s for a present value whose String(...) image is s.

The body may also carry timeCode and timeLabel properties (a client override
attempt); the handler never reads them, and they are recorded here so that
this independence can be stated. -/
structure PostBody where
  technicalFit : JSNum
  functionalFit : JSNum
  customerName : Option String
  customerId : Option String
  category : Option String
  solution : Option String
  vendor : Option String
  notes : Option String
  dateImplemented : Option String
  contractExpiration : Option String
  timeCode : Option String
  timeLabel : Option String
deriving DecidableEq, Repr

/-- The helper S from src/unnamed/part_001 line 136:
S = (v) => (v == null ? "" : String(v).trim()). -/
def S (v : Option String) : String :=
  match v with
  | none => ""
  | some s => jsTrim s

/-- Document sent to the external store by the create branch
(src/unnamed/part_001 lines 168-183). -/
structure StoredDoc where
  customerName : String
  customerId : Option String
  category : String
  solution : String
  vendor : String
  notes : String
  technicalFit : JSNum
  functionalFit : JSNum
  timeCode : String
  timeLabel : String
  dateImplemented : Option String
  contractExpiration : Option String
  createdAt : String
  updatedAt : String
deriving DecidableEq, Repr

/-- Parsed body of an upstream restdb response, as restdbFetch produces it
(src/unnamed/part_001 lines 70-78): null for an empty body, a JSON array of
alpha, or anything else (a non-array JSON value or unparsable raw text). -/
inductive RestData (α : Type) where
  | null
  | arr (xs : List α)
  | nonArray (raw : String)
deriving DecidableEq, Repr

/-- Upstream restdb response: the ok flag (2xx), the status, and the parsed
body. -/
structure RestResp (α : Type) where
  ok : Bool
  status : Nat
  data : RestData α
deriving DecidableEq, Repr

/-- Exact-match filter object q built by the list branch
(src/unnamed/part_001 lines 111-115); a none field is an absent key. -/
structure Filter where
  customerName : Option String
  customerId : Option String
  category : Option String
deriving DecidableEq, Repr

/-- Object.keys(q).length == 0. -/
def Filter.isEmpty (q : Filter) : Bool :=
  q.customerName.isNone && q.customerId.isNone && q.category.isNone

/-- The query string sent upstream by the list branch: the optional JSON
filter (absent when q has no keys) and the sort descriptor, which the source
always sets to createdAt: -1. -/
structure UpstreamQuery where
  filter : Option Filter
  sortField : String
  sortDir : Int
deriving DecidableEq, Repr

/-- Query-string parameters of a GET /api/items request, as returned by
url.searchParams.get (none when the parameter is absent). -/
structure ListQuery where
  customerName : Option String
  customerId : Option String
  category : Option String
deriving DecidableEq, Repr

/-- Query construction of the list branch, src/unnamed/part_001 lines 106-121:
each parameter is read with (url.searchParams.get(...) or empty).trim(); a
non-empty customerName and category become exact-match keys of q, a non-empty
legacy customerId becomes a key only when customerName is empty, and the q
parameter is omitted entirely when q has no keys. -/
def buildListQuery (params : ListQuery) : UpstreamQuery :=
  let customerName := jsTrim (params.customerName.getD "")
  let customerId := jsTrim (params.customerId.getD "")
  let category := jsTrim (params.category.getD "")
  let q : Filter :=
    { customerName := if customerName != "" then some customerName else none
      customerId := if customerName == "" && customerId != "" then some customerId else none
      category := if category != "" then some category else none }
  { filter := if q.isEmpty then none else some q
    sortField := "createdAt"
    sortDir := -1 }

/-- One call made to the external store by the items handler. -/
inductive UpstreamCall where
  | list (q : UpstreamQuery)
  | create (doc : StoredDoc)
  | del (id : String)
deriving DecidableEq, Repr

/-- Observable result of the items handler.  thrown is an exception that
escapes the handler (nothing in src/unnamed/part_001 catches it), every other
constructor is an HTTP response. -/
inductive ItemsOut where
  | thrown (msg : String)
  | configErr (status : Nat) (msg : String)
  | badRequest (msg : String)
  | upstreamErr (status : Nat) (data : RestData StoredDoc)
  | okItems (xs : List StoredDoc)
  | okCreated (data : RestData StoredDoc)
  | okDeleted
  | methodNotAllowed
deriving DecidableEq, Repr

/-- GET branch of handleItems, src/unnamed/part_001 lines 106-129.  The
upstream oracle stands for the external store; restdbFetch first runs
requireEnv, whose Error escapes the handler uncaught. -/
def handleItemsList (env : Env) (params : ListQuery)
    (upstream : UpstreamCall → RestResp StoredDoc) :
    ItemsOut × List UpstreamCall :=
  let uq := buildListQuery params
  if missingKeys env != [] then (.thrown (missingMsg env), [])
  else
    let resp := upstream (.list uq)
    if !resp.ok then (.upstreamErr resp.status resp.data, [.list uq])
    else
      (.okItems (match resp.data with | .arr xs => xs | _ => []), [.list uq])

/-- POST branch of handleItems, src/unnamed/part_001 lines 132-192. -/
def handleItemsPost (env : Env) (parsed : Option JsonVal)
    (fieldsOf : JsonVal → PostBody) (now : String)
    (upstream : UpstreamCall → RestResp StoredDoc) :
    ItemsOut × List UpstreamCall :=
  match parsed with
  | none => (.badRequest "Invalid JSON body", [])
  | some body =>
    if !body.truthy then (.badRequest "Invalid JSON body", [])
    else
      let b := fieldsOf body
      if !(b.technicalFit.geC 1 && b.technicalFit.leC 5) then
        (.badRequest "technicalFit must be 1-5", [])
      else if !(b.functionalFit.geC 1 && b.functionalFit.leC 5) then
        (.badRequest "functionalFit must be 1-5", [])
      else
        let customerName := S b.customerName
        let customerId := S b.customerId
        let category := S b.category
        let solution := S b.solution
        let vendor := S b.vendor
        let notes := S b.notes
        let dateImplemented := S b.dateImplemented
        let contractExpiration := S b.contractExpiration
        if customerName == "" || category == "" || solution == "" then
          (.badRequest "customerName, category, and solution are required", [])
        else
          let time := computeTIME b.technicalFit b.functionalFit
          let doc : StoredDoc :=
            { customerName := customerName
              customerId := if customerId == "" then none else some customerId
              category := category
              solution := solution
              vendor := vendor
              notes := notes
              technicalFit := b.technicalFit
              functionalFit := b.functionalFit
              timeCode := time.code
              timeLabel := time.label
              dateImplemented :=
                if dateImplemented == "" then none else some dateImplemented
              contractExpiration :=
                if contractExpiration == "" then none else some contractExpiration
              createdAt := now
              updatedAt := now }
          if missingKeys env != [] then (.thrown (missingMsg env), [])
          else
            let resp := upstream (.create doc)
            if !resp.ok then (.upstreamErr resp.status resp.data, [.create doc])
            else (.okCreated resp.data, [.create doc])

/-- DELETE branch of handleItems, src/unnamed/part_001 lines 195-204. -/
def handleItemsDelete (env : Env) (id : String)
    (upstream : UpstreamCall → RestResp StoredDoc) :
    ItemsOut × List UpstreamCall :=
  if missingKeys env != [] then (.thrown (missingMsg env), [])
  else
    let resp := upstream (.del id)
    if !resp.ok then (.upstreamErr resp.status resp.data, [.del id])
    else (.okDeleted, [.del id])

/-- The handleItems function of src/unnamed/part_001 lines 96-207.  idSeg is
parts[2] or null; method is req.method.  The first check mirrors lines 97-98:
String(env.RESTDB_COLLECTION or empty) must be truthy, else a 500 response. -/
def handleItems (env : Env) (method : String) (idSeg : Option String)
    (params : ListQuery) (parsed : Option JsonVal)
    (fieldsOf : JsonVal → PostBody) (now : String)
    (upstream : UpstreamCall → RestResp StoredDoc) :
    ItemsOut × List UpstreamCall :=
  let baseCol := env.RESTDB_COLLECTION.getD ""
  if baseCol == "" then (.configErr 500 "Missing RESTDB_COLLECTION", [])
  else if method == "GET" && idSeg.isNone then handleItemsList env params upstream
  else if method == "POST" && idSeg.isNone then
    handleItemsPost env parsed fieldsOf now upstream
  else
    match idSeg with
    | some id =>
      if method == "DELETE" then handleItemsDelete env id upstream
      else (.methodNotAllowed, [])
    | none => (.methodNotAllowed, [])

/-- One element of the customerName projection returned by the store for the
customers aggregate.  none is a falsy array element; some none is a truthy
element whose customerName property is falsy (absent, null, empty, zero or
false); some (some s) is a truthy element with truthy customerName whose
String(...) image is s. -/
abbrev ProjItem := Option (Option String)

/-- The name the aggregation loop derives from one element
(src/unnamed/part_001 line 228):
it and it.customerName ? String(it.customerName).trim() : "". -/
def projName (it : ProjItem) : String :=
  match it with
  | some (some s) => jsTrim s
  | _ => ""

/-- One row of the customers array: { customerName, count }. -/
structure CustomerEntry where
  customerName : String
  count : Nat
deriving DecidableEq, Repr

/-- Lexicographic comparison of character lists, the model of the default
localeCompare ordering the customers sort uses; written structurally so that
it evaluates by kernel reduction. -/
def charListLe : List Char → List Char → Bool
  | [], _ => true
  | _ :: _, [] => false
  | a :: as, b :: bs => if a = b then charListLe as bs else decide (a < b)

/-- Comparison a.localeCompare(b) <= 0, modelled as lexicographic order on the
character lists. -/
def strLe (a b : String) : Bool :=
  charListLe a.data b.data

/-- JavaScript Map.prototype.set on an association list with distinct keys:
replace the value at an existing key in place, else append. -/
def mapSet : List (String × Nat) → String → Nat → List (String × Nat)
  | [], k, v => [(k, v)]
  | (a, b) :: t, k, v =>
    if a == k then (a, v) :: t else (a, b) :: mapSet t k v

/-- One iteration of the aggregation loop, src/unnamed/part_001 lines 227-231:
skip an empty derived name, else map.set(name, (map.get(name) or 0) + 1). -/
def aggStep (m : List (String × Nat)) (it : ProjItem) : List (String × Nat) :=
  let name := projName it
  if name == "" then m
  else mapSet m name ((List.lookup name m).getD 0 + 1)

/-- The customers array built by handleCustomers, src/unnamed/part_001 lines
225-235: aggregate into a Map, turn the entries into objects, and sort by
customerName ascending.  The sort comparator localeCompare is modelled by the
lexicographic order strLe; Array.prototype.sort is stable, as is
insertionSort (the map keys are distinct, so stability never matters here). -/
def aggregateCustomers (items : List ProjItem) : List CustomerEntry :=
  let m := items.foldl aggStep []
  List.insertionSort (fun a b => strLe a.customerName b.customerName = true)
    (m.map fun p => { customerName := p.1, count := p.2 })

/-- Observable result of handleCustomers (src/unnamed/part_001 lines 209-238).
thrown is the uncaught requireEnv Error from restdbFetch; handleCustomers has
no configuration check of its own. -/
inductive CustomersOut where
  | thrown (msg : String)
  | methodNotAllowed
  | upstreamErr (status : Nat) (data : RestData ProjItem)
  | okCustomers (cs : List CustomerEntry)
deriving DecidableEq, Repr

/-- The handleCustomers function of src/unnamed/part_001 lines 209-238.  The
upstream response is a parameter: the request it answers carries the constant
projection fields customerName: 1 and sort customerName: 1. -/
def handleCustomers (env : Env) (method : String)
    (resp : RestResp ProjItem) : CustomersOut :=
  if method != "GET" then .methodNotAllowed
  else if missingKeys env != [] then .thrown (missingMsg env)
  else if !resp.ok then .upstreamErr resp.status resp.data
  else
    .okCustomers
      (aggregateCustomers (match resp.data with | .arr xs => xs | _ => []))

/-- Where the top-level fetch routes a request. -/
inductive RouteOutcome where
  | page
  | unauthorized
  | itemsHandler
  | customersHandler
  | apiNotFoundJson
  | plainNotFound
deriving DecidableEq, Repr

/-- Routing of the src/unnamed/part_001 fetch handler (lines 2-24) combined
with handleApi (lines 82-94).  This variant performs no token check at all:
env and the x-app-token header are ignored. -/
def fetchRoute (env : Env) (path : String) (xAppToken : Option String) :
    RouteOutcome :=
  if path == "/" then .page
  else if jsStartsWith path "/api/" then
    if jsStartsWith path "/api/items" then .itemsHandler
    else if path == "/api/customers" then .customersHandler
    else .apiNotFoundJson
  else .plainNotFound

/-- Routing of the src/unnamed/part_000 fetch handler (lines 3-35), identical
in src/src/_worker.js (lines 2-34): only paths starting with /api/items are
routed to the API, and those are gated when env.APP_SHARED_TOKEN is truthy by
comparing the x-app-token header (null becomes the empty string) against the
secret with strict string equality. -/
def fetchRouteGated (env : Env) (path : String) (xAppToken : Option String) :
    RouteOutcome :=
  if path == "/" then .page
  else if jsStartsWith path "/api/items" then
    if envTruthy env.APP_SHARED_TOKEN then
      let token := xAppToken.getD ""
      if token != env.APP_SHARED_TOKEN.getD "" then .unauthorized
      else .itemsHandler
    else .itemsHandler
  else .plainNotFound

/-- C1: computeTIME returns exactly one of the four fixed (code, label) pairs,
each characterised by the inclusive threshold 4 on the coerced inputs (NaN
counts as not-high), and the documented examples hold. -/
theorem claim_C1_computeTIME_classification (t f : JSNum) :
    (computeTIME t f = ⟨"I", "Invest"⟩ ∨ computeTIME t f = ⟨"M", "Migrate"⟩ ∨
      computeTIME t f = ⟨"T", "Tolerate"⟩ ∨ computeTIME t f = ⟨"E", "Eliminate"⟩) ∧
    (computeTIME t f = ⟨"I", "Invest"⟩ ↔ (t.geC 4 = true ∧ f.geC 4 = true)) ∧
    (computeTIME t f = ⟨"M", "Migrate"⟩ ↔ (t.geC 4 = false ∧ f.geC 4 = true)) ∧
    (computeTIME t f = ⟨"T", "Tolerate"⟩ ↔ (t.geC 4 = true ∧ f.geC 4 = false)) ∧
    (computeTIME t f = ⟨"E", "Eliminate"⟩ ↔ (t.geC 4 = false ∧ f.geC 4 = false)) ∧
    computeTIME (.fin 5) (.fin 5) = ⟨"I", "Invest"⟩ ∧
    computeTIME (.fin 2) (.fin 5) = ⟨"M", "Migrate"⟩ ∧
    computeTIME (.fin 5) (.fin 2) = ⟨"T", "Tolerate"⟩ ∧
    computeTIME (.fin 1) (.fin 1) = ⟨"E", "Eliminate"⟩ ∧
    computeTIME (.fin 4) (.fin 4) = ⟨"I", "Invest"⟩ ∧
    computeTIME (.fin 3) (.fin 4) = ⟨"M", "Migrate"⟩ ∧
    computeTIME .nan .nan = ⟨"E", "Eliminate"⟩ := by
  refine ⟨?_, ?_, ?_, ?_, ?_, by decide, by decide, by decide, by decide,
    by decide, by decide, by decide⟩ <;>
    cases h1 : t.geC 4 <;> cases h2 : f.geC 4 <;>
      simp [computeTIME, h1, h2]

/-- C2: the backend classification function and the client-side live-preview
classification function are extensionally equal. -/
theorem claim_C2_computeTIME_client_server_agree (t f : JSNum) :
    computeTIME t f = ClientScript.computeTIME t f := rfl

/-- Sample environment with every RESTDB setting present and a shared token
configured. -/
def envGated : Env :=
  { RESTDB_BASE := some "https://db.example"
    RESTDB_COLLECTION := some "techmatrix"
    RESTDB_API_KEY := some "key123"
    APP_SHARED_TOKEN := some "sekret" }

/-- Sample environment with RESTDB_BASE unset and the other settings present. -/
def envNoBase : Env :=
  { RESTDB_BASE := none
    RESTDB_COLLECTION := some "techmatrix"
    RESTDB_API_KEY := some "key123"
    APP_SHARED_TOKEN := none }

/-- Upstream oracle answering every call with an empty-bodied 200. -/
def upstreamNone : UpstreamCall → RestResp StoredDoc := fun _ => ⟨true, 200, .null⟩

/-- A body record whose every property is absent. -/
def emptyPostBody : PostBody :=
  ⟨.nan, .nan, none, none, none, none, none, none, none, none, none, none⟩

/-- A body record for a well-formed create request. -/
def goodPostBody : PostBody :=
  { technicalFit := .fin 2
    functionalFit := .fin 5
    customerName := some " Acme Corp "
    customerId := none
    category := some "UC/UCaaS"
    solution := some "Zoom Phone"
    vendor := some "Zoom"
    notes := some ""
    dateImplemented := none
    contractExpiration := none
    timeCode := some "I"
    timeLabel := some "Invest" }

/-- C3: rating validation of the create branch.  With the collection
configured and a truthy parsed body, a technicalFit whose coerced value fails
the inclusive range test 1 to 5 is rejected with the 400 message
technicalFit must be 1-5 before any upstream call (the call trace is empty),
and analogously for functionalFit once technicalFit passes; the range test
itself accepts the boundary values 1 and 5 and rejects 0 and 6. -/
theorem claim_C3_create_rating_validation
    (env : Env) (params : ListQuery) (parsed : Option JsonVal)
    (fieldsOf : JsonVal → PostBody) (now : String)
    (upstream : UpstreamCall → RestResp StoredDoc) (body : JsonVal)
    (hcol : (env.RESTDB_COLLECTION.getD "" == "") = false)
    (hbody : parsed = some body)
    (htruthy : body.truthy = true) :
    (((fieldsOf body).technicalFit.geC 1 && (fieldsOf body).technicalFit.leC 5) = false →
      handleItems env "POST" none params parsed fieldsOf now upstream
        = (.badRequest "technicalFit must be 1-5", [])) ∧
    (((fieldsOf body).technicalFit.geC 1 && (fieldsOf body).technicalFit.leC 5) = true →
      ((fieldsOf body).functionalFit.geC 1 && (fieldsOf body).functionalFit.leC 5) = false →
      handleItems env "POST" none params parsed fieldsOf now upstream
        = (.badRequest "functionalFit must be 1-5", [])) ∧
    ((JSNum.fin 1).geC 1 && (JSNum.fin 1).leC 5) = true ∧
    ((JSNum.fin 5).geC 1 && (JSNum.fin 5).leC 5) = true ∧
    ((JSNum.fin 0).geC 1 && (JSNum.fin 0).leC 5) = false ∧
    ((JSNum.fin 6).geC 1 && (JSNum.fin 6).leC 5) = false := by
  subst hbody
  refine ⟨?_, ?_, by decide, by decide, by decide, by decide⟩
  · intro h
    simp [handleItems, handleItemsPost, hcol, htruthy, h]
  · intro h1 h2
    simp [handleItems, handleItemsPost, hcol, htruthy, h1, h2]

/-- Witness for C3 at a concrete request with technicalFit coercing to 0. -/
theorem claim_C3_witness :
    ((envGated.RESTDB_COLLECTION.getD "" == "") = false ∧
      (some (JsonVal.obj []) : Option JsonVal) = some (JsonVal.obj []) ∧
      (JsonVal.obj []).truthy = true) ∧
    (((emptyPostBody.technicalFit.geC 1 && emptyPostBody.technicalFit.leC 5) = false →
      handleItems envGated "POST" none ⟨none, none, none⟩ (some (JsonVal.obj []))
          (fun _ => emptyPostBody) "" upstreamNone
        = (.badRequest "technicalFit must be 1-5", [])) ∧
      ((emptyPostBody.technicalFit.geC 1 && emptyPostBody.technicalFit.leC 5) = true →
        (emptyPostBody.functionalFit.geC 1 && emptyPostBody.functionalFit.leC 5) = false →
        handleItems envGated "POST" none ⟨none, none, none⟩ (some (JsonVal.obj []))
            (fun _ => emptyPostBody) "" upstreamNone
          = (.badRequest "functionalFit must be 1-5", [])) ∧
      ((JSNum.fin 1).geC 1 && (JSNum.fin 1).leC 5) = true ∧
      ((JSNum.fin 5).geC 1 && (JSNum.fin 5).leC 5) = true ∧
      ((JSNum.fin 0).geC 1 && (JSNum.fin 0).leC 5) = false ∧
      ((JSNum.fin 6).geC 1 && (JSNum.fin 6).leC 5) = false) :=
  ⟨⟨by decide, rfl, by decide⟩,
    claim_C3_create_rating_validation envGated ⟨none, none, none⟩
      (some (JsonVal.obj [])) (fun _ => emptyPostBody) "" upstreamNone
      (JsonVal.obj []) (by decide) rfl (by decide)⟩

/-- C4: once both ratings pass range validation, a create whose trimmed
customerName, category or solution is empty is rejected with the single
combined 400 message customerName, category, and solution are required, and
no document is sent upstream (the call trace is empty). -/
theorem claim_C4_create_required_fields
    (env : Env) (params : ListQuery) (parsed : Option JsonVal)
    (fieldsOf : JsonVal → PostBody) (now : String)
    (upstream : UpstreamCall → RestResp StoredDoc) (body : JsonVal)
    (hcol : (env.RESTDB_COLLECTION.getD "" == "") = false)
    (hbody : parsed = some body)
    (htruthy : body.truthy = true)
    (htech : ((fieldsOf body).technicalFit.geC 1 && (fieldsOf body).technicalFit.leC 5) = true)
    (hfunc : ((fieldsOf body).functionalFit.geC 1 && (fieldsOf body).functionalFit.leC 5) = true)
    (hempty : S (fieldsOf body).customerName = "" ∨ S (fieldsOf body).category = "" ∨
      S (fieldsOf body).solution = "") :
    handleItems env "POST" none params parsed fieldsOf now upstream
      = (.badRequest "customerName, category, and solution are required", []) := by
  subst hbody
  rcases hempty with h | h | h <;>
    simp [handleItems, handleItemsPost, hcol, htruthy, htech, hfunc, h]

/-- Witness for C4 at a concrete request whose customerName is whitespace. -/
theorem claim_C4_witness :
    ((envGated.RESTDB_COLLECTION.getD "" == "") = false ∧
      (some (JsonVal.obj []) : Option JsonVal) = some (JsonVal.obj []) ∧
      (JsonVal.obj []).truthy = true ∧
      (({ goodPostBody with customerName := some "   " } : PostBody).technicalFit.geC 1 &&
        ({ goodPostBody with customerName := some "   " } : PostBody).technicalFit.leC 5) = true ∧
      (({ goodPostBody with customerName := some "   " } : PostBody).functionalFit.geC 1 &&
        ({ goodPostBody with customerName := some "   " } : PostBody).functionalFit.leC 5) = true ∧
      S ({ goodPostBody with customerName := some "   " } : PostBody).customerName = "") ∧
    handleItems envGated "POST" none ⟨none, none, none⟩ (some (JsonVal.obj []))
        (fun _ => { goodPostBody with customerName := some "   " }) "" upstreamNone
      = (.badRequest "customerName, category, and solution are required", []) :=
  ⟨⟨by decide, rfl, by decide, by decide, by decide, by decide⟩,
    claim_C4_create_required_fields envGated ⟨none, none, none⟩
      (some (JsonVal.obj [])) (fun _ => { goodPostBody with customerName := some "   " })
      "" upstreamNone (JsonVal.obj []) (by decide) rfl (by decide) (by decide)
      (by decide) (Or.inl (by decide))⟩

/-- C10: with the collection configured, the POST branch answers 400 with
Invalid JSON body exactly when the parse result is falsy (a failed parse, or
the JSON literals null, false, 0 or the empty string); every truthy parse
result proceeds past this check into field validation. -/
theorem claim_C10_falsy_body_rejected
    (env : Env) (params : ListQuery) (parsed : Option JsonVal)
    (fieldsOf : JsonVal → PostBody) (now : String)
    (upstream : UpstreamCall → RestResp StoredDoc)
    (hcol : (env.RESTDB_COLLECTION.getD "" == "") = false) :
    (handleItems env "POST" none params parsed fieldsOf now upstream
        = (.badRequest "Invalid JSON body", []) ↔ truthyOpt parsed = false) := by
  cases parsed with
  | none => simp [handleItems, handleItemsPost, hcol, truthyOpt]
  | some body =>
    cases ht : body.truthy with
    | false => simp [handleItems, handleItemsPost, hcol, truthyOpt, ht]
    | true =>
      refine iff_of_false ?_ (by simp [truthyOpt, ht])
      intro h
      simp only [handleItems, handleItemsPost, hcol, ht] at h
      simp only [Bool.not_true, Bool.false_eq_true, if_false] at h
      norm_num at h
      repeat' split at h
      all_goals simp_all

/-- Witness for C10 at the falsy JSON literal 0. -/
theorem claim_C10_witness :
    (envGated.RESTDB_COLLECTION.getD "" == "") = false ∧
    (handleItems envGated "POST" none ⟨none, none, none⟩ (some (JsonVal.num 0))
        (fun _ => goodPostBody) "" upstreamNone
      = (.badRequest "Invalid JSON body", []) ↔
      truthyOpt (some (JsonVal.num 0)) = false) :=
  ⟨by decide,
    claim_C10_falsy_body_rejected envGated ⟨none, none, none⟩ (some (JsonVal.num 0))
      (fun _ => goodPostBody) "" upstreamNone (by decide)⟩

set_option maxHeartbeats 1600000 in
/-- C5: every document the create branch sends upstream carries the
classification recomputed from the submitted ratings, and the handler is
entirely independent of any timeCode or timeLabel the client supplies in the
body (overwriting those body properties changes nothing). -/
theorem claim_C5_timeCode_recomputed
    (env : Env) (params : ListQuery) (parsed : Option JsonVal)
    (fieldsOf : JsonVal → PostBody) (now : String)
    (upstream : UpstreamCall → RestResp StoredDoc) (doc : StoredDoc)
    (tc tl : Option String)
    (hsent : (handleItems env "POST" none params parsed fieldsOf now upstream).2
        = [UpstreamCall.create doc]) :
    doc.timeCode = (computeTIME doc.technicalFit doc.functionalFit).code ∧
    doc.timeLabel = (computeTIME doc.technicalFit doc.functionalFit).label ∧
    handleItems env "POST" none params parsed
        (fun v => { fieldsOf v with timeCode := tc, timeLabel := tl }) now upstream
      = handleItems env "POST" none params parsed fieldsOf now upstream := by
  refine ⟨?_, ?_, rfl⟩ <;>
  · have h : (handleItemsPost env parsed fieldsOf now upstream).2
        = [UpstreamCall.create doc] := by
      by_cases hcol : env.RESTDB_COLLECTION.getD "" = ""
      · exfalso; simp [handleItems, hcol] at hsent
      · simpa [handleItems, hcol] using hsent
    clear hsent
    cases parsed with
    | none => simp [handleItemsPost] at h
    | some body =>
      simp only [handleItemsPost, apply_ite Prod.snd] at h
      repeat' split at h
      all_goals simp_all
      all_goals (subst h; rfl)

/-- Witness for C5 at a concrete accepted create request. -/
theorem claim_C5_witness :
    (handleItems envGated "POST" none ⟨none, none, none⟩ (some (JsonVal.obj []))
          (fun _ => goodPostBody) "2026-01-01T00:00:00.000Z" upstreamNone).2
      = [UpstreamCall.create
          { customerName := "Acme Corp"
            customerId := none
            category := "UC/UCaaS"
            solution := "Zoom Phone"
            vendor := "Zoom"
            notes := ""
            technicalFit := .fin 2
            functionalFit := .fin 5
            timeCode := "M"
            timeLabel := "Migrate"
            dateImplemented := none
            contractExpiration := none
            createdAt := "2026-01-01T00:00:00.000Z"
            updatedAt := "2026-01-01T00:00:00.000Z" }] ∧
    ({ customerName := "Acme Corp", customerId := none, category := "UC/UCaaS"
       solution := "Zoom Phone", vendor := "Zoom", notes := ""
       technicalFit := .fin 2, functionalFit := .fin 5
       timeCode := "M", timeLabel := "Migrate"
       dateImplemented := none, contractExpiration := none
       createdAt := "2026-01-01T00:00:00.000Z"
       updatedAt := "2026-01-01T00:00:00.000Z" } : StoredDoc).timeCode
        = (computeTIME (.fin 2) (.fin 5)).code ∧
    ({ customerName := "Acme Corp", customerId := none, category := "UC/UCaaS"
       solution := "Zoom Phone", vendor := "Zoom", notes := ""
       technicalFit := .fin 2, functionalFit := .fin 5
       timeCode := "M", timeLabel := "Migrate"
       dateImplemented := none, contractExpiration := none
       createdAt := "2026-01-01T00:00:00.000Z"
       updatedAt := "2026-01-01T00:00:00.000Z" } : StoredDoc).timeLabel
        = (computeTIME (.fin 2) (.fin 5)).label ∧
    handleItems envGated "POST" none ⟨none, none, none⟩ (some (JsonVal.obj []))
        (fun _ => { goodPostBody with timeCode := some "I", timeLabel := some "Invest" })
        "2026-01-01T00:00:00.000Z" upstreamNone
      = handleItems envGated "POST" none ⟨none, none, none⟩ (some (JsonVal.obj []))
          (fun _ => goodPostBody) "2026-01-01T00:00:00.000Z" upstreamNone := by
  have h := claim_C5_timeCode_recomputed envGated ⟨none, none, none⟩
    (some (JsonVal.obj [])) (fun _ => goodPostBody) "2026-01-01T00:00:00.000Z"
    upstreamNone
    { customerName := "Acme Corp", customerId := none, category := "UC/UCaaS"
      solution := "Zoom Phone", vendor := "Zoom", notes := ""
      technicalFit := .fin 2, functionalFit := .fin 5
      timeCode := "M", timeLabel := "Migrate"
      dateImplemented := none, contractExpiration := none
      createdAt := "2026-01-01T00:00:00.000Z"
      updatedAt := "2026-01-01T00:00:00.000Z" }
    (some "I") (some "Invest") (by decide)
  exact ⟨by decide, h.1, h.2.1, h.2.2⟩

/-- C6 counterexample: with the shared token configured and the x-app-token
header absent, the part_001 router still dispatches /api/items to the items
handler (it has no token gate), and the gated part_000 router answers a
request for the /api/customers path with the plain 404, not with 401. -/
theorem claim_C6_counterexample :
    fetchRoute envGated "/api/items" none = RouteOutcome.itemsHandler ∧
    fetchRouteGated envGated "/api/customers" none = RouteOutcome.plainNotFound := by
  constructor <;> rfl

/-- C6 amended: in the gated variants (src/src/_worker.js and
src/unnamed/part_000) a configured shared token gates exactly the paths
beginning with /api/items, the whole API surface of those variants: an absent
(empty after the null-to-empty default) or mismatching x-app-token header
yields the 401 Unauthorized response before any handler logic runs.  The
part_001 variant performs no token check at all. -/
theorem claim_C6_token_gate_amended
    (env : Env) (path : String) (tok : Option String)
    (hconf : envTruthy env.APP_SHARED_TOKEN = true)
    (hpath : jsStartsWith path "/api/items" = true)
    (hroot : (path == "/") = false)
    (hmismatch : (tok.getD "" != env.APP_SHARED_TOKEN.getD "") = true) :
    fetchRouteGated env path tok = RouteOutcome.unauthorized ∧
    fetchRoute env path tok ≠ RouteOutcome.unauthorized := by
  constructor
  · simp only [fetchRouteGated, hroot, hpath, hconf, hmismatch]
    simp
  · unfold fetchRoute
    split <;> try simp
    split <;> simp

/-- Witness for the amended C6 at a concrete mismatching request. -/
theorem claim_C6_token_gate_witness :
    envTruthy envGated.APP_SHARED_TOKEN = true ∧
    jsStartsWith "/api/items/42" "/api/items" = true ∧
    (("/api/items/42" : String) == "/") = false ∧
    (((some "wrong" : Option String).getD "" != envGated.APP_SHARED_TOKEN.getD "")
      = true) ∧
    (fetchRouteGated envGated "/api/items/42" (some "wrong")
        = RouteOutcome.unauthorized ∧
      fetchRoute envGated "/api/items/42" (some "wrong")
        ≠ RouteOutcome.unauthorized) :=
  ⟨rfl, rfl, rfl, rfl,
    claim_C6_token_gate_amended envGated "/api/items/42" (some "wrong")
      rfl rfl rfl rfl⟩

/-- C8: evaluation of the code at the failing input.  With
RESTDB_COLLECTION and RESTDB_API_KEY set but RESTDB_BASE unset, a
GET /api/items call in part_001 passes the collection check, reaches
restdbFetch, and the requireEnv Error escapes the handler uncaught (the
thrown outcome) instead of producing the 500 JSON envelope the claim
requires; nothing was sent upstream.  The part_000 and src/src/_worker.js
variants catch this same Error and answer 500. -/
theorem claim_C8_missing_config_uncaught :
    handleItems envNoBase "GET" none ⟨none, none, none⟩ none
        (fun _ => emptyPostBody) "" upstreamNone
      = (.thrown "Missing env vars: RESTDB_BASE", []) ∧
    handleCustomers envNoBase "GET" ⟨true, 200, .arr []⟩
      = .thrown "Missing env vars: RESTDB_BASE" := by
  constructor <;> rfl

/-- C9 counterexample: a GET /api/items request with no customerName and no
category parameter but with the legacy customerId parameter set sends a
filter object upstream, refuting the claim that no filter object at all is
sent when neither documented parameter is given. -/
theorem claim_C9_counterexample :
    (handleItems envGated "GET" none ⟨none, some "abc-123", none⟩ none
          (fun _ => emptyPostBody) "" upstreamNone).2
      = [UpstreamCall.list (buildListQuery ⟨none, some "abc-123", none⟩)] ∧
    (buildListQuery ⟨none, some "abc-123", none⟩).filter
      = some { customerName := none, customerId := some "abc-123", category := none } := by
  constructor <;> rfl

/-- C9 amended: the original claim with the legacy branch made explicit.  For
a GET /api/items request without an id segment the query sent upstream has an
exact-match customerName entry exactly when the trimmed customerName
parameter is non-empty, a category entry exactly when the trimmed category
parameter is non-empty, and additionally a legacy exact-match customerId
entry when customerName is empty and the trimmed customerId parameter is
non-empty; no filter object at all is sent only when all three are empty.
The query always carries the sort descriptor createdAt descending, a 2xx
upstream array response is returned unchanged as the items, and an empty or
non-array upstream body yields the empty items list. -/
theorem claim_C9_list_query_amended
    (env : Env) (params : ListQuery) (parsed : Option JsonVal)
    (fieldsOf : JsonVal → PostBody) (now : String)
    (upstream : UpstreamCall → RestResp StoredDoc)
    (out : ItemsOut) (trace : List UpstreamCall) (cn cid cat : String)
    (hcol : (env.RESTDB_COLLECTION.getD "" == "") = false)
    (hkeys : missingKeys env = [])
    (hcn : cn = jsTrim (params.customerName.getD ""))
    (hcid : cid = jsTrim (params.customerId.getD ""))
    (hcat : cat = jsTrim (params.category.getD ""))
    (hrun : handleItems env "GET" none params parsed fieldsOf now upstream
        = (out, trace)) :
    trace = [UpstreamCall.list (buildListQuery params)] ∧
    ((buildListQuery params).filter = none ↔ (cn = "" ∧ cid = "" ∧ cat = "")) ∧
    ((buildListQuery params).filter.bind Filter.customerName
        = if cn = "" then none else some cn) ∧
    ((buildListQuery params).filter.bind Filter.category
        = if cat = "" then none else some cat) ∧
    ((buildListQuery params).filter.bind Filter.customerId
        = if cn = "" then (if cid = "" then none else some cid) else none) ∧
    (buildListQuery params).sortField = "createdAt" ∧
    (buildListQuery params).sortDir = -1 ∧
    ((upstream (UpstreamCall.list (buildListQuery params))).ok = true →
      out = ItemsOut.okItems
        (match (upstream (UpstreamCall.list (buildListQuery params))).data with
          | RestData.arr xs => xs
          | _ => [])) := by
  subst hcn hcid hcat
  have hpair :
      handleItems env "GET" none params parsed fieldsOf now upstream
        = (let resp := upstream (.list (buildListQuery params))
          if !resp.ok then (.upstreamErr resp.status resp.data,
              [.list (buildListQuery params)])
          else
            (.okItems (match resp.data with | .arr xs => xs | _ => []),
              [.list (buildListQuery params)])) := by
    simp [handleItems, handleItemsList, hcol, hkeys]
  rw [hpair] at hrun
  refine ⟨?_, ?_, ?_, ?_, ?_, rfl, rfl, ?_⟩
  · cases hok : (upstream (.list (buildListQuery params))).ok <;>
      simp [hok] at hrun <;> exact hrun.2.symm
  · unfold buildListQuery Filter.isEmpty
    by_cases h1 : jsTrim (params.customerName.getD "") = "" <;>
      by_cases h2 : jsTrim (params.customerId.getD "") = "" <;>
        by_cases h3 : jsTrim (params.category.getD "") = "" <;>
          simp [h1, h2, h3]
  · unfold buildListQuery Filter.isEmpty
    by_cases h1 : jsTrim (params.customerName.getD "") = "" <;>
      by_cases h2 : jsTrim (params.customerId.getD "") = "" <;>
        by_cases h3 : jsTrim (params.category.getD "") = "" <;>
          simp [h1, h2, h3]
  · unfold buildListQuery Filter.isEmpty
    by_cases h1 : jsTrim (params.customerName.getD "") = "" <;>
      by_cases h2 : jsTrim (params.customerId.getD "") = "" <;>
        by_cases h3 : jsTrim (params.category.getD "") = "" <;>
          simp [h1, h2, h3]
  · unfold buildListQuery Filter.isEmpty
    by_cases h1 : jsTrim (params.customerName.getD "") = "" <;>
      by_cases h2 : jsTrim (params.customerId.getD "") = "" <;>
        by_cases h3 : jsTrim (params.category.getD "") = "" <;>
          simp [h1, h2, h3]
  · intro hok
    simp [hok] at hrun
    exact hrun.1.symm

/-- Witness for the amended C9 at a concrete filtered list request. -/
theorem claim_C9_list_query_witness :
    ((envGated.RESTDB_COLLECTION.getD "" == "") = false ∧
      missingKeys envGated = [] ∧
      ("Acme" : String) = jsTrim ((some " Acme " : Option String).getD "") ∧
      ("" : String) = jsTrim ((none : Option String).getD "") ∧
      ("" : String) = jsTrim ((some "  " : Option String).getD "") ∧
      handleItems envGated "GET" none ⟨some " Acme ", none, some "  "⟩ none
          (fun _ => emptyPostBody) "" upstreamNone
        = (ItemsOut.okItems [],
            [UpstreamCall.list (buildListQuery ⟨some " Acme ", none, some "  "⟩)])) ∧
    ([UpstreamCall.list (buildListQuery ⟨some " Acme ", none, some "  "⟩)]
        = [UpstreamCall.list (buildListQuery ⟨some " Acme ", none, some "  "⟩)] ∧
      ((buildListQuery ⟨some " Acme ", none, some "  "⟩).filter = none ↔
        (("Acme" : String) = "" ∧ ("" : String) = "" ∧ ("" : String) = "")) ∧
      ((buildListQuery ⟨some " Acme ", none, some "  "⟩).filter.bind Filter.customerName
          = if ("Acme" : String) = "" then none else some "Acme") ∧
      ((buildListQuery ⟨some " Acme ", none, some "  "⟩).filter.bind Filter.category
          = if ("" : String) = "" then none else some "") ∧
      ((buildListQuery ⟨some " Acme ", none, some "  "⟩).filter.bind Filter.customerId
          = if ("Acme" : String) = ""
            then (if ("" : String) = "" then none else some "") else none) ∧
      (buildListQuery ⟨some " Acme ", none, some "  "⟩).sortField = "createdAt" ∧
      (buildListQuery ⟨some " Acme ", none, some "  "⟩).sortDir = -1 ∧
      ((upstreamNone (UpstreamCall.list (buildListQuery ⟨some " Acme ", none, some "  "⟩))).ok
          = true →
        ItemsOut.okItems []
          = ItemsOut.okItems
            (match (upstreamNone
                (UpstreamCall.list (buildListQuery ⟨some " Acme ", none, some "  "⟩))).data with
              | RestData.arr xs => xs
              | _ => []))) :=
  ⟨⟨by decide, by decide, by decide, by decide, by decide, by decide⟩,
    claim_C9_list_query_amended envGated ⟨some " Acme ", none, some "  "⟩ none
      (fun _ => emptyPostBody) "" upstreamNone (ItemsOut.okItems [])
      [UpstreamCall.list (buildListQuery ⟨some " Acme ", none, some "  "⟩)]
      "Acme" "" "" (by decide) (by decide) (by decide) (by decide) (by decide)
      (by decide)⟩

/-- Number of projection items whose derived aggregation name is k. -/
def occCount (items : List ProjItem) (k : String) : Nat :=
  (items.filter (fun it => projName it == k)).length

theorem mapSet_cons_self (a : String) (b : Nat) (t : List (String × Nat))
    (v : Nat) : mapSet ((a, b) :: t) a v = (a, v) :: t := by
  simp [mapSet]

theorem mapSet_cons_ne (a : String) (b : Nat) (t : List (String × Nat))
    (k : String) (v : Nat) (h : a ≠ k) :
    mapSet ((a, b) :: t) k v = (a, b) :: mapSet t k v := by
  simp [mapSet, h]

theorem lookup_mapSet_self (m : List (String × Nat)) (k : String) (v : Nat) :
    List.lookup k (mapSet m k v) = some v := by
  induction m with
  | nil => simp [mapSet]
  | cons p t ih =>
    obtain ⟨a, b⟩ := p
    by_cases h : a = k
    · subst h
      rw [mapSet_cons_self]
      simp
    · rw [mapSet_cons_ne _ _ _ _ _ h, List.lookup_cons]
      simp [beq_false_of_ne (Ne.symm h), ih]

theorem lookup_mapSet_ne (m : List (String × Nat)) (k : String) (v : Nat)
    (k2 : String) (h : k2 ≠ k) :
    List.lookup k2 (mapSet m k v) = List.lookup k2 m := by
  induction m with
  | nil =>
    rw [show mapSet [] k v = [(k, v)] from rfl, List.lookup_cons]
    simp [beq_false_of_ne h]
  | cons p t ih =>
    obtain ⟨a, b⟩ := p
    by_cases ha : a = k
    · subst ha
      rw [mapSet_cons_self, List.lookup_cons, List.lookup_cons]
      simp [beq_false_of_ne h]
    · rw [mapSet_cons_ne _ _ _ _ _ ha, List.lookup_cons, List.lookup_cons]
      by_cases h2 : k2 = a
      · simp [h2]
      · simp [beq_false_of_ne h2, ih]

/-- Behaviour of the aggregation loop on one lookup: folding the loop body
over the items either leaves a key untouched (when no item bears it) or adds
its occurrence count to the stored value. -/
theorem lookup_foldl_aggStep (items : List ProjItem) :
    ∀ (m : List (String × Nat)) (k : String), k ≠ "" →
      List.lookup k (items.foldl aggStep m)
        = if occCount items k = 0 then List.lookup k m
          else some ((List.lookup k m).getD 0 + occCount items k) := by
  induction items with
  | nil =>
    intro m k hk
    simp [occCount]
  | cons it rest ih =>
    intro m k hk
    rw [List.foldl_cons]
    by_cases hname : projName it = ""
    · rw [show aggStep m it = m from by simp [aggStep, hname]]
      have hcond : (projName it == k) = false := by
        rw [hname]
        exact beq_false_of_ne (Ne.symm hk)
      have hocc : occCount (it :: rest) k = occCount rest k := by
        simp [occCount, List.filter_cons, hcond]
      rw [hocc, ih m k hk]
    · by_cases hkeq : projName it = k
      · rw [show aggStep m it
            = mapSet m (projName it) ((List.lookup (projName it) m).getD 0 + 1) from by
          simp [aggStep, hname]]
        subst hkeq
        have hocc : occCount (it :: rest) (projName it)
            = occCount rest (projName it) + 1 := by
          simp [occCount, List.filter_cons]
        rw [ih _ _ hk, hocc, lookup_mapSet_self]
        by_cases ho : occCount rest (projName it) = 0
        · simp [ho]
        · have h1 : occCount rest (projName it) + 1 ≠ 0 := by omega
          rw [if_neg ho, if_neg h1]
          simp only [Option.getD_some]
          congr 1
          omega
      · rw [show aggStep m it
            = mapSet m (projName it) ((List.lookup (projName it) m).getD 0 + 1) from by
          simp [aggStep, hname]]
        have hcond : (projName it == k) = false := beq_false_of_ne hkeq
        have hocc : occCount (it :: rest) k = occCount rest k := by
          simp [occCount, List.filter_cons, hcond]
        rw [ih _ _ hk, hocc, lookup_mapSet_ne _ _ _ _ (Ne.symm hkeq)]

theorem mem_keys_mapSet (m : List (String × Nat)) (k : String) (v : Nat)
    (x : String) :
    x ∈ (mapSet m k v).map Prod.fst ↔ x ∈ m.map Prod.fst ∨ x = k := by
  induction m with
  | nil => simp [mapSet]
  | cons p t ih =>
    obtain ⟨a, b⟩ := p
    by_cases h : a = k
    · subst h
      rw [mapSet_cons_self]
      simp
      tauto
    · rw [mapSet_cons_ne _ _ _ _ _ h]
      simp [ih]
      tauto

theorem nodup_keys_mapSet (m : List (String × Nat)) (k : String) (v : Nat)
    (h : (m.map Prod.fst).Nodup) :
    ((mapSet m k v).map Prod.fst).Nodup := by
  induction m with
  | nil => simp [mapSet]
  | cons p t ih =>
    obtain ⟨a, b⟩ := p
    simp only [List.map_cons, List.nodup_cons] at h
    by_cases ha : a = k
    · subst ha
      rw [mapSet_cons_self]
      simp only [List.map_cons, List.nodup_cons]
      exact ⟨h.1, h.2⟩
    · rw [mapSet_cons_ne _ _ _ _ _ ha]
      simp only [List.map_cons, List.nodup_cons]
      refine ⟨?_, ih h.2⟩
      rw [mem_keys_mapSet]
      rintro (hx | hx)
      · exact h.1 hx
      · exact ha hx

theorem mem_mapSet (m : List (String × Nat)) (k : String) (v : Nat)
    (p : String × Nat) (hp : p ∈ mapSet m k v) : p ∈ m ∨ p.1 = k := by
  induction m with
  | nil =>
    rw [show mapSet [] k v = [(k, v)] from rfl] at hp
    have h := List.mem_singleton.mp hp
    right
    rw [h]
  | cons q t ih =>
    obtain ⟨a, b⟩ := q
    by_cases h : a = k
    · subst h
      rw [mapSet_cons_self] at hp
      rcases List.mem_cons.mp hp with h1 | h1
      · right
        rw [h1]
      · left
        exact List.mem_cons_of_mem _ h1
    · rw [mapSet_cons_ne _ _ _ _ _ h] at hp
      rcases List.mem_cons.mp hp with h1 | h1
      · left
        rw [h1]
        exact List.mem_cons_self _ _
      · rcases ih h1 with h2 | h2
        · left
          exact List.mem_cons_of_mem _ h2
        · right
          exact h2

/-- Invariant of the aggregation loop: the map keeps distinct, non-empty
keys. -/
theorem keys_foldl_aggStep (items : List ProjItem) :
    ∀ m : List (String × Nat),
      (m.map Prod.fst).Nodup → (∀ p ∈ m, p.1 ≠ "") →
      ((items.foldl aggStep m).map Prod.fst).Nodup ∧
        ∀ p ∈ items.foldl aggStep m, p.1 ≠ "" := by
  induction items with
  | nil =>
    intro m h1 h2
    exact ⟨h1, h2⟩
  | cons it rest ih =>
    intro m h1 h2
    rw [List.foldl_cons]
    by_cases hname : projName it = ""
    · rw [show aggStep m it = m from by simp [aggStep, hname]]
      exact ih m h1 h2
    · rw [show aggStep m it
          = mapSet m (projName it) ((List.lookup (projName it) m).getD 0 + 1) from by
        simp [aggStep, hname]]
      refine ih _ (nodup_keys_mapSet _ _ _ h1) ?_
      intro p hp
      rcases mem_mapSet _ _ _ _ hp with h | h
      · exact h2 p h
      · rw [h]
        exact hname

theorem lookup_of_mem_nodup (m : List (String × Nat)) (p : String × Nat)
    (hnd : (m.map Prod.fst).Nodup) (hp : p ∈ m) :
    List.lookup p.1 m = some p.2 := by
  induction m with
  | nil => simp at hp
  | cons q t ih =>
    obtain ⟨a, b⟩ := q
    simp only [List.map_cons, List.nodup_cons] at hnd
    rcases List.mem_cons.mp hp with h | h
    · rw [h]
      simp
    · have hne : p.1 ≠ a := by
        intro hcontra
        apply hnd.1
        rw [← hcontra]
        exact List.mem_map_of_mem Prod.fst h
      rw [List.lookup_cons]
      simp [beq_false_of_ne hne, ih hnd.2 h]

theorem countP_keys (m : List (String × Nat)) (k : String)
    (hnd : (m.map Prod.fst).Nodup) :
    m.countP (fun p => p.1 == k) = if (List.lookup k m).isSome then 1 else 0 := by
  induction m with
  | nil => simp
  | cons q t ih =>
    obtain ⟨a, b⟩ := q
    simp only [List.map_cons, List.nodup_cons] at hnd
    by_cases h : a = k
    · subst h
      have hz : List.countP (fun p => p.1 == a) t = 0 := by
        rw [List.countP_eq_zero]
        intro p hp hpk
        apply hnd.1
        have hpa : p.1 = a := by simpa using hpk
        rw [← hpa]
        exact List.mem_map_of_mem Prod.fst hp
      rw [List.countP_cons, hz]
      simp
    · rw [List.countP_cons, List.lookup_cons,
        show (k == a) = false from beq_false_of_ne (Ne.symm h)]
      simp [beq_false_of_ne h, ih hnd.2]

theorem charListLe_total (as bs : List Char) :
    charListLe as bs = true ∨ charListLe bs as = true := by
  induction as generalizing bs with
  | nil =>
    left
    simp [charListLe]
  | cons a as ih =>
    cases bs with
    | nil =>
      right
      simp [charListLe]
    | cons b bs =>
      by_cases h : a = b
      · subst h
        simpa [charListLe] using ih bs
      · rcases lt_or_gt_of_ne h with hlt | hlt
        · left
          simp [charListLe, h, hlt]
        · right
          simp [charListLe, Ne.symm h, hlt]

theorem charListLe_trans (as bs cs : List Char)
    (h1 : charListLe as bs = true) (h2 : charListLe bs cs = true) :
    charListLe as cs = true := by
  induction as generalizing bs cs with
  | nil => simp [charListLe]
  | cons a as ih =>
    cases bs with
    | nil => simp [charListLe] at h1
    | cons b bs =>
      cases cs with
      | nil => simp [charListLe] at h2
      | cons c cs =>
        by_cases hab : a = b <;> by_cases hbc : b = c
        · subst hab
          subst hbc
          simp only [charListLe, if_pos rfl] at h1 h2 ⊢
          exact ih bs cs h1 h2
        · subst hab
          simp only [charListLe, if_pos rfl] at h1
          simp only [charListLe, if_neg hbc, decide_eq_true_eq] at h2
          simp only [charListLe, if_neg hbc, decide_eq_true_eq]
          exact h2
        · subst hbc
          simp only [charListLe, if_neg hab, decide_eq_true_eq] at h1
          simp only [charListLe, if_neg hab, decide_eq_true_eq]
          exact h1
        · simp only [charListLe, if_neg hab, decide_eq_true_eq] at h1
          simp only [charListLe, if_neg hbc, decide_eq_true_eq] at h2
          have hac : a < c := lt_trans h1 h2
          simp only [charListLe, if_neg (ne_of_lt hac), decide_eq_true_eq]
          exact hac

instance : IsTotal CustomerEntry
    (fun a b => strLe a.customerName b.customerName = true) :=
  ⟨fun a b => charListLe_total a.customerName.data b.customerName.data⟩

instance : IsTrans CustomerEntry
    (fun a b => strLe a.customerName b.customerName = true) :=
  ⟨fun _ _ _ h1 h2 => charListLe_trans _ _ _ h1 h2⟩

/-- C7: a customers list answered by the aggregate endpoint from an upstream
array of projection items is sorted ascending by name, lists every distinct
non-empty trimmed customerName exactly once, and pairs each name with the
number of items bearing it; empty or missing names are skipped and never
appear. -/
theorem claim_C7_customers_aggregate
    (env : Env) (resp : RestResp ProjItem) (items : List ProjItem)
    (cs : List CustomerEntry) (name : String) (c : CustomerEntry)
    (hkeys : missingKeys env = [])
    (hok : resp.ok = true)
    (hdata : resp.data = RestData.arr items)
    (hrun : handleCustomers env "GET" resp = CustomersOut.okCustomers cs)
    (hname : name ≠ "")
    (hc : c ∈ cs) :
    List.Sorted (fun a b => strLe a.customerName b.customerName = true) cs ∧
    cs.countP (fun e => e.customerName == name)
      = (if occCount items name = 0 then 0 else 1) ∧
    c.customerName ≠ "" ∧
    c.count = occCount items c.customerName := by
  have hcs : cs = aggregateCustomers items := by
    simp only [handleCustomers, hkeys, hok, hdata] at hrun
    norm_num at hrun
    exact hrun.symm
  subst hcs
  have hinv := keys_foldl_aggStep items [] (by simp) (by simp)
  refine ⟨List.sorted_insertionSort _ _, ?_, ?_⟩
  · have hperm := List.perm_insertionSort
      (fun a b : CustomerEntry => strLe a.customerName b.customerName = true)
      ((items.foldl aggStep []).map fun p => ⟨p.1, p.2⟩)
    rw [show aggregateCustomers items
        = List.insertionSort (fun a b => strLe a.customerName b.customerName = true)
            ((items.foldl aggStep []).map fun p => ⟨p.1, p.2⟩) from rfl]
    rw [hperm.countP_eq]
    rw [List.countP_map]
    have hcp : ((items.foldl aggStep []).countP
          ((fun e : CustomerEntry => e.customerName == name) ∘ fun p => ⟨p.1, p.2⟩))
        = (items.foldl aggStep []).countP (fun p => p.1 == name) := rfl
    rw [hcp, countP_keys _ _ hinv.1, lookup_foldl_aggStep items [] name hname]
    by_cases ho : occCount items name = 0 <;> simp [ho, List.lookup]
  · have hc2 : c ∈ (items.foldl aggStep []).map
        (fun p => (⟨p.1, p.2⟩ : CustomerEntry)) := by
      rw [show aggregateCustomers items
          = List.insertionSort (fun a b => strLe a.customerName b.customerName = true)
              ((items.foldl aggStep []).map fun p => ⟨p.1, p.2⟩) from rfl] at hc
      exact (List.mem_insertionSort _).mp hc
    obtain ⟨pr, hpr, hceq⟩ := List.mem_map.mp hc2
    have hn : c.customerName = pr.1 := by rw [← hceq]
    have hcount : c.count = pr.2 := by rw [← hceq]
    have hne : c.customerName ≠ "" := by
      rw [hn]
      exact hinv.2 pr hpr
    refine ⟨hne, ?_⟩
    have hlk : List.lookup pr.1 (items.foldl aggStep []) = some pr.2 :=
      lookup_of_mem_nodup _ pr hinv.1 hpr
    rw [lookup_foldl_aggStep items [] pr.1 (hn ▸ hne)] at hlk
    by_cases ho : occCount items pr.1 = 0
    · rw [if_pos ho] at hlk
      simp at hlk
    · rw [if_neg ho] at hlk
      simp only [List.lookup_nil, Option.getD_none, Option.some.injEq] at hlk
      rw [hn, hcount]
      omega

/-- Witness for C7 at a concrete projection with a repeated name, a
whitespace-padded name, a null element and an element without a name. -/
theorem claim_C7_witness :
    (missingKeys envGated = [] ∧
      (⟨true, 200, RestData.arr
          [some (some " b "), some (some "a"), none, some none, some (some "b")]⟩
        : RestResp ProjItem).ok = true ∧
      (⟨true, 200, RestData.arr
          [some (some " b "), some (some "a"), none, some none, some (some "b")]⟩
        : RestResp ProjItem).data = RestData.arr
          [some (some " b "), some (some "a"), none, some none, some (some "b")] ∧
      handleCustomers envGated "GET"
          ⟨true, 200, RestData.arr
            [some (some " b "), some (some "a"), none, some none, some (some "b")]⟩
        = CustomersOut.okCustomers [⟨"a", 1⟩, ⟨"b", 2⟩] ∧
      ("b" : String) ≠ "" ∧
      (⟨"a", 1⟩ : CustomerEntry) ∈ [(⟨"a", 1⟩ : CustomerEntry), ⟨"b", 2⟩]) ∧
    (List.Sorted (fun a b : CustomerEntry => strLe a.customerName b.customerName = true)
        [⟨"a", 1⟩, ⟨"b", 2⟩] ∧
      ([(⟨"a", 1⟩ : CustomerEntry), ⟨"b", 2⟩]).countP (fun e => e.customerName == "b")
        = (if occCount
              [some (some " b "), some (some "a"), none, some none, some (some "b")]
              "b" = 0 then 0 else 1) ∧
      (⟨"a", 1⟩ : CustomerEntry).customerName ≠ "" ∧
      (⟨"a", 1⟩ : CustomerEntry).count
        = occCount
            [some (some " b "), some (some "a"), none, some none, some (some "b")]
            (⟨"a", 1⟩ : CustomerEntry).customerName) :=
  ⟨⟨by decide, rfl, rfl, by decide, by decide, by decide⟩,
    claim_C7_customers_aggregate envGated
      ⟨true, 200, RestData.arr
        [some (some " b "), some (some "a"), none, some none, some (some "b")]⟩
      [some (some " b "), some (some "a"), none, some none, some (some "b")]
      [⟨"a", 1⟩, ⟨"b", 2⟩] "b" ⟨"a", 1⟩
      (by decide) rfl rfl (by decide) (by decide) (by decide)⟩

end TechMatrix
